import Mathlib

/-!
Verification development for the LoopHealth hospital-locator assistant.

The Python source (src/agent.py, src/rag_engine.py) is shallowly embedded
below: pure functions become Lean functions, the mutable
`ConversationMemory` / agent state is threaded explicitly, machine floats
are modelled as exact rationals, and every Python `try/except` is modelled
as an `Except`-valued computation with an explicit catch.  External
collaborators (the sklearn vectorizer/cosine routine and the ollama
generation call) are parameters of the embedded engine/agent: arbitrary
functions that may fail, so that every theorem quantifies over their
behaviour.
-/

deriving instance DecidableEq for Except

/-- Python strings are modelled as their character sequences; the helpers
below implement the Python `str` methods the source uses, by structural
recursion on `List Char` so that concrete runs reduce inside the kernel. -/
def charsInfix (pat : List Char) : List Char → Bool
  | [] => pat.isEmpty
  | c :: cs => List.isPrefixOf pat (c :: cs) || charsInfix pat cs

/-- Python `pat in s` substring containment (`str.__contains__`). -/
def strContains (s pat : String) : Bool := charsInfix pat.toList s.toList

/-- Python `str.lower()` (ASCII, as all source tokens are). -/
def pyLower (s : String) : String := String.mk (s.toList.map Char.toLower)

/-- Python `str.strip()`: whitespace removed from both ends. -/
def pyStrip (s : String) : String :=
  String.mk
    (((s.toList.dropWhile Char.isWhitespace).reverse.dropWhile
        Char.isWhitespace).reverse)

/-- Python `str.startswith(pat)`. -/
def pyStartsWith (s pat : String) : Bool :=
  List.isPrefixOf pat.toList s.toList

/-- Fuelled worker for `str.replace`: each step consumes at least one
character, so fuel equal to the input length suffices. -/
def replaceFuel (pat rep : List Char) : Nat → List Char → List Char
  | 0, l => l
  | _ + 1, [] => []
  | fuel + 1, c :: cs =>
    if !pat.isEmpty && List.isPrefixOf pat (c :: cs) then
      rep ++ replaceFuel pat rep fuel (List.drop (pat.length - 1) cs)
    else c :: replaceFuel pat rep fuel cs

/-- Python `s.replace(pat, rep)` (all non-overlapping occurrences,
left to right). -/
def pyReplace (s pat rep : String) : String :=
  String.mk (replaceFuel pat.toList rep.toList s.toList.length s.toList)

/-- Python `int(g)` on an all-digit string. -/
def digitsToNat (l : List Char) : Nat :=
  l.foldl (fun n c => n * 10 + (c.toNat - 48)) 0

/-- Python `any(w in s for w in ws)` as used by the source. -/
def containsAny (s : String) (ws : List String) : Bool :=
  ws.any (fun w => strContains s w)

/-- Python `list(set(xs))`.  CPython iterates a `set` in hash order; we model
it as first-occurrence order (`List.dedup`).  Every claim below uses only the
membership and non-emptiness of this list, which are order-independent. -/
def pySet (l : List String) : List String := l.dedup

/-- Python `l[-n:]` (as used in `add_interaction`): for `n = 0` this is the
whole list (`-0 == 0`), otherwise the last `n` elements. -/
def pyTail (n : Nat) (l : List α) : List α :=
  if n = 0 then l else l.drop (l.length - n)

/-- Intent / last-intent labels used by `agent.py`. -/
inductive IntentType where
  | search
  | confirmation
  | followup
  deriving Repr, DecidableEq, BEq

/-- One retrieved hospital dict as produced by `rag_engine.py`.  The
first-pass dicts of `search_by_name_and_city` carry no `full_text` key,
modelled by `none`.  Scores (Python floats) are modelled as rationals. -/
structure SearchResult where
  name : String
  address : String
  city : String
  full_text : Option String
  score : ℚ
  relevance : String
  deriving Repr, DecidableEq

/-- One entry of `ConversationMemory.history`. -/
structure Turn where
  user : String
  assistant : String
  hospitals : List SearchResult
  deriving Repr, DecidableEq

/-- The `self.context` dict of `ConversationMemory`; absent keys are `none`. -/
structure MemContext where
  last_cities : Option (List String)
  last_hospital_names : Option (List String)
  last_intent : Option IntentType
  deriving Repr, DecidableEq

/-- State of `ConversationMemory` (agent.py lines 17-56). -/
structure ConversationMemory where
  history : List Turn
  max_history : Nat
  context : MemContext
  deriving Repr, DecidableEq

/-- Model of `ConversationMemory.__init__`. -/
def initMemory (maxH : Nat) : ConversationMemory :=
  { history := [], max_history := maxH, context := ⟨none, none, none⟩ }

/-- Model of `_update_context` (agent.py lines 29-40): re-derive `last_cities` /
`last_hospital_names` only when the new result set is non-empty, then the
keyword scan for `last_intent`. -/
def update_context (ctx : MemContext) (query : String)
    (hospitals : List SearchResult) : MemContext :=
  let ctx1 :=
    if hospitals.isEmpty then ctx
    else { ctx with
            last_cities := some (pySet (hospitals.map (fun h => h.city))),
            last_hospital_names := some (hospitals.map (fun h => h.name)) }
  let ql := pyLower query
  if containsAny ql ["confirm", "check", "is"] then
    { ctx1 with last_intent := some IntentType.confirmation }
  else if containsAny ql ["find", "show", "list", "tell"] then
    { ctx1 with last_intent := some IntentType.search }
  else if containsAny ql ["more", "other", "additional"] then
    { ctx1 with last_intent := some IntentType.followup }
  else ctx1

/-- Model of `add_interaction` (agent.py lines 23-27): append the turn, keep only the
last `max_history` entries when over the cap, then recompute the context. -/
def add_interaction (mem : ConversationMemory) (user_query ai_response : String)
    (hospitals : List SearchResult) : ConversationMemory :=
  let h1 := mem.history ++ [⟨user_query, ai_response, hospitals⟩]
  let h2 := if h1.length > mem.max_history then pyTail mem.max_history h1 else h1
  { mem with history := h2, context := update_context mem.context user_query hospitals }

/-- Model of `get_last_city` (agent.py lines 51-52).  When the `last_cities` key is
present Python evaluates `self.context['last_cities'][0]`, which raises
`IndexError` on an empty list; the potential raise is modelled by `Except`. -/
def get_last_city (mem : ConversationMemory) : Except Unit (Option String) :=
  match mem.context.last_cities with
  | some l =>
    match l.head? with
    | some c => Except.ok (some c)
    | none => Except.error ()
  | none => Except.ok none

/-- Model of `clear` (agent.py lines 54-56). -/
def clearMemory (mem : ConversationMemory) : ConversationMemory :=
  { mem with history := [], context := ⟨none, none, none⟩ }

/-- One row of `hospitals_df` (columns `hospital name`, `address`, `city`). -/
structure Row where
  hospital_name : String
  address : String
  city : String
  deriving Repr, DecidableEq

/-- One entry of `self.metadata` in `rag_engine.py`. -/
structure Meta where
  name : String
  city : String
  address : String
  index : Nat
  deriving Repr, DecidableEq

/-- The fitted `HospitalRAG` state.  The sklearn vectorizer and the cosine
routine are external collaborators; they are modelled as arbitrary function
parameters.  `vec` is `self.vectorizer.transform` (which may raise, hence
`Except`), `csim` is the row-wise cosine similarity, `docVecs` the rows of
`self.tfidf_matrix`.  `vectorizerSome` / `tfidfSome` model the Python
truthiness tests `not self.vectorizer` / `self.tfidf_matrix is None`. -/
structure Engine where
  vectorizerSome : Bool
  tfidfSome : Bool
  metadata : List Meta
  documents : List String
  docVecs : List (List ℚ)
  vec : String → Except Unit (List ℚ)
  csim : List ℚ → List ℚ → ℚ
  hospitals_df : Option (List Row)

/-- Insertion step of the `np.argsort` model: place index `i` into an already ascending
index list, after every index whose score is `≤` score `i` (stability). -/
def insertAsc (sims : List ℚ) (i : Nat) : List Nat → List Nat
  | [] => [i]
  | j :: rest =>
    if sims.getD i 0 < sims.getD j 0 then i :: j :: rest
    else j :: insertAsc sims i rest

/-- Ascending stable argsort of the first `n` indices. -/
def argsortAux (sims : List ℚ) (n : Nat) : List Nat :=
  (List.range n).foldl (fun acc i => insertAsc sims i acc) []

/-- Model of `np.argsort(similarities)`: ascending indices, ties in index order
(the deterministic model of numpy's sort used throughout). -/
def argsortAsc (sims : List ℚ) : List Nat := argsortAux sims sims.length

/-- Model of `np.argsort(similarities)[::-1][:k]` from `search_hospitals`. -/
def rankedIndices (sims : List ℚ) (k : Nat) : List Nat :=
  (argsortAsc sims).reverse.take k

/-- The relevance tier of a score (rag_engine.py line 148). -/
def relevanceOf (score : ℚ) : String :=
  if score > mkRat 1 2 then "high" else if score > mkRat 1 5 then "medium" else "low"

/-- The loop of `search_hospitals` (rag_engine.py lines 137-150): for each
ranked index passing the bound/threshold guard, build the result dict; the
`self.documents[idx]` access can raise `IndexError`, modelled by `Except`. -/
def collectResults (eng : Engine) (sims : List ℚ) (θ : ℚ) :
    List Nat → Except Unit (List SearchResult)
  | [] => Except.ok []
  | idx :: rest =>
    if idx < eng.metadata.length && decide (θ ≤ sims.getD idx 0) then
      match eng.documents[idx]? with
      | some doc =>
        match eng.metadata[idx]? with
        | some meta =>
          (collectResults eng sims θ rest).map (fun tail =>
            { name := meta.name, address := meta.address, city := meta.city,
              full_text := some doc, score := sims.getD idx 0,
              relevance := relevanceOf (sims.getD idx 0) } :: tail)
        | none => Except.error ()
      | none => Except.error ()
    else collectResults eng sims θ rest

/-- The similarity row `cosine_similarity(query_vec, self.tfidf_matrix)`. -/
def simsOf (eng : Engine) (query : String) : List ℚ :=
  match eng.vec query with
  | Except.ok qv => eng.docVecs.map (fun d => eng.csim qv d)
  | Except.error _ => []

/-- The `try` body of `search_hospitals`. -/
def searchBody (eng : Engine) (query : String) (k : Nat) (θ : ℚ) :
    Except Unit (List SearchResult) :=
  match eng.vec query with
  | Except.error e => Except.error e
  | Except.ok qv =>
    let sims := eng.docVecs.map (fun d => eng.csim qv d)
    collectResults eng sims θ (rankedIndices sims k)

/-- Model of `search_hospitals` (rag_engine.py lines 128-152): guard on a missing
vectorizer/matrix, then the ranked retrieval with every exception caught
and turned into `[]`. -/
def search_hospitals (eng : Engine) (query : String) (k : Nat) (θ : ℚ) :
    List SearchResult :=
  if !eng.vectorizerSome || !eng.tfidfSome then []
  else
    match searchBody eng query k θ with
    | Except.ok l => l
    | Except.error _ => []

/-- Python truthiness of the optional `city` argument (`if city:`). -/
def pyTruthyStr (c : Option String) : Bool := !(c.getD "").isEmpty

/-- The exact-match row predicate of `search_by_name_and_city`
(rag_engine.py lines 159-161). -/
def rowMatches (nm : String) (city : Option String) (r : Row) : Bool :=
  strContains (pyLower r.hospital_name) (pyLower nm) &&
    (if pyTruthyStr city then strContains (pyLower r.city) (pyLower (city.getD ""))
     else true)

/-- A first-pass exact-match result dict (score `1.0`, relevance `high`,
no `full_text` key). -/
def mkExact (r : Row) : SearchResult :=
  { name := r.hospital_name, address := r.address, city := r.city,
    full_text := none, score := 1, relevance := "high" }

/-- The first (exact substring) pass of `search_by_name_and_city`:
matching rows in catalog order, truncated by `.head(k)`. -/
def firstPass (rows : List Row) (nm : String) (city : Option String)
    (k : Nat) : List SearchResult :=
  ((rows.filter (rowMatches nm city)).take k).map mkExact

/-- The semantic-fallback append loop (rag_engine.py lines 172-176):
append candidates whose lowercased name is not among the first-pass names,
stopping once `k` results are held.  `existing` is computed once, before
the loop, exactly as `existing_names` is in the source. -/
def appendLoop (existing : List String) (k : Nat) :
    List SearchResult → List SearchResult → List SearchResult
  | acc, [] => acc
  | acc, c :: rest =>
    if existing.contains (pyLower c.name) then appendLoop existing k acc rest
    else
      let acc2 := acc ++ [c]
      if k ≤ acc2.length then acc2 else appendLoop existing k acc2 rest

/-- The synthesized fallback phrase (rag_engine.py line 169/180). -/
def fallbackQuery (nm : String) (city : Option String) : String :=
  if pyTruthyStr city then nm ++ " hospital in " ++ city.getD ""
  else nm ++ " hospital"

/-- Model of `search_by_name_and_city` (rag_engine.py lines 154-181): exact pass,
semantic fill-up, truncation to `k`.  The embedded first pass is total, so
the source's `except` fallback branch is unreachable here. -/
def search_by_name_and_city (eng : Engine) (nm : String) (city : Option String)
    (k : Nat) : List SearchResult :=
  match eng.hospitals_df with
  | none => []
  | some rows =>
    let first := firstPass rows nm city k
    let hospitals :=
      if first.length < k then
        appendLoop (first.map (fun h => pyLower h.name)) k first
          (search_hospitals eng (fallbackQuery nm city) k (mkRat 1 10))
      else first
    hospitals.take k

/-- The extracted intent dict of `_extract_intent`. -/
structure Intent where
  type : IntentType
  city : Option String
  hospital_name : Option String
  count : Nat
  deriving Repr, DecidableEq

/-- Python `str.capitalize()`: first character uppercased, rest lowercased. -/
def pyCapitalize (s : String) : String :=
  match s.toList with
  | [] => ""
  | c :: cs => String.mk (c.toUpper :: cs.map Char.toLower)

/-- Length of the leading run of the character `d`, with the remainder. -/
def dRun : List Char → Nat × List Char
  | 'd' :: rest => let p := dRun rest; (p.1 + 1, p.2)
  | cs => (0, cs)

/-- The source's count pattern is the raw string `r'\\b(\\d+|three|five|ten)\\b'`
(agent.py line 131): because the backslashes are doubled inside a raw string,
the compiled regex matches a literal backslash-`b`, then either a literal
backslash followed by letters `d` or one of the words, then a literal
backslash-`b`.  This matcher tries the group alternatives after the literal
prefix `\x5cb` has been consumed. -/
def matchBrokenGroup (rest : List Char) : Option String :=
  match rest with
  | '\\' :: 'd' :: more =>
    let p := dRun more
    (match p.2 with
     | '\\' :: 'b' :: _ => some ("\\d" ++ String.mk (List.replicate p.1 'd'))
     | _ => none)
  | _ => none

/-- The word alternatives `three|five|ten` followed by the literal `\x5cb`. -/
def matchWordsAt (rest : List Char) : Option String :=
  (["three", "five", "ten"].find? (fun w =>
    List.isPrefixOf (w.toList ++ ['\\', 'b']) rest))

/-- One match attempt of the (broken) count regex at the current position. -/
def matchBrokenAt : List Char → Option String
  | '\\' :: 'b' :: rest =>
    (match matchBrokenGroup rest with
     | some g => some g
     | none => matchWordsAt rest)
  | _ => none

/-- Model of `re.findall(...)[0]`: the first match of the count pattern, scanning
left to right. -/
def findFirstNumber : List Char → Option String
  | [] => none
  | c :: cs =>
    match matchBrokenAt (c :: cs) with
    | some g => some g
    | none => findFirstNumber cs

/-- The `num_map` dictionary lookup. -/
def numMapGet (g : String) : Option Nat :=
  if g == "three" then some 3
  else if g == "five" then some 5
  else if g == "ten" then some 10
  else none

/-- The count branch of `_extract_intent` (agent.py lines 131-134). -/
def extract_count (ql : String) : Nat :=
  match findFirstNumber ql.toList with
  | none => 3
  | some g =>
    if g.toList.all Char.isDigit && !g.isEmpty then
      (numMapGet g).getD (digitsToNat g.toList)
    else (numMapGet g).getD 3

/-- The intent-type classification of `_extract_intent`
(agent.py lines 111-114). -/
def extract_type (query : String) : IntentType :=
  let ql := pyLower query
  if containsAny ql ["confirm", "is", "check", "verify"] then
    IntentType.confirmation
  else if containsAny ql ["more", "other", "additional"] then
    IntentType.followup
  else IntentType.search

/-- The fixed city token list of `_extract_intent`. -/
def cityTokens : List String :=
  ["bangalore", "bengaluru", "delhi", "mumbai", "chennai", "hyderabad",
   "pune", "kolkata"]

/-- The fixed hospital brand token list of `_extract_intent`. -/
def hospitalTokens : List String :=
  ["manipal", "apollo", "fortis", "max", "medanta", "artemis"]

/-- First token (in list order) occurring as a substring of the query. -/
def scanFirst (ql : String) (tokens : List String) : Option String :=
  tokens.find? (fun t => strContains ql t)

/-- Model of `_extract_intent` (agent.py lines 107-136).  The follow-up city fallback
calls `get_last_city`, whose potential `IndexError` propagates, hence the
`Except` result. -/
def extract_intent (mem : ConversationMemory) (query : String) :
    Except Unit Intent :=
  let ql := pyLower query
  let ty := extract_type query
  let city0 := (scanFirst ql cityTokens).map pyCapitalize
  let cityE : Except Unit (Option String) :=
    if city0.isNone && ty == IntentType.followup then get_last_city mem
    else Except.ok city0
  match cityE with
  | Except.error e => Except.error e
  | Except.ok city =>
    Except.ok { type := ty, city := city,
                hospital_name := scanFirst ql hospitalTokens,
                count := extract_count ql }

/-- The keyword allowlist of `_is_hospital_related` (agent.py lines 102-104). -/
def hospitalKeywords : List String :=
  ["hospital", "clinic", "medical", "health", "doctor", "healthcare",
   "network", "manipal", "apollo", "fortis", "bangalore", "delhi",
   "location", "address", "find", "near", "around", "city", "confirm",
   "check", "available", "list", "tell"]

/-- Model of `_is_hospital_related` (agent.py lines 101-105). -/
def is_hospital_related (query : String) : Bool :=
  containsAny (pyLower query) hospitalKeywords

/-- The per-attempt answer post-processing (agent.py line 200).  Like the
count regex, the replace patterns in the source are the literal two-character
sequences backslash-`n` / backslash-`r`, not newlines. -/
def postprocess (raw : String) : String :=
  pyReplace (pyReplace (pyStrip raw) "\\n" " ") "\\r" " "

/-- The response-quality acceptance test (agent.py line 203). -/
def qualityOk (a : String) : Bool :=
  decide (20 < a.length) && decide (a.length < 500) &&
    !(pyStartsWith a "I apologize")

/-- Third generation attempt: a raised exception is re-raised
(`if attempt == 3: raise`), a quality failure falls through to the
deterministic fallback (`Except.ok none`). -/
def attempt3 (gen : Nat → Except Unit String) : Except Unit (Option String) :=
  match gen 3 with
  | Except.ok raw =>
    let a := postprocess raw
    Except.ok (if qualityOk a then some a else none)
  | Except.error e => Except.error e

/-- Second generation attempt: failures of either kind continue the loop. -/
def attempt2 (gen : Nat → Except Unit String) : Except Unit (Option String) :=
  match gen 2 with
  | Except.ok raw =>
    let a := postprocess raw
    if qualityOk a then Except.ok (some a) else attempt3 gen
  | Except.error _ => attempt3 gen

/-- The multi-attempt generation loop of `process_query`
(agent.py lines 184-214), over an arbitrary generator oracle `gen`
(attempt number to outcome): `ok (some a)` is an accepted answer,
`ok none` means all three attempts failed the quality check, `error` means
the third attempt raised. -/
def attemptLoop (gen : Nat → Except Unit String) : Except Unit (Option String) :=
  match gen 1 with
  | Except.ok raw =>
    let a := postprocess raw
    if qualityOk a then Except.ok (some a) else attempt2 gen
  | Except.error _ => attempt2 gen

/-- The deterministic fallback sentence (agent.py lines 217-220): up to three
result names — without cities — or the generic not-found sentence. -/
def fallbackAnswer (hospitals : List SearchResult) : String :=
  if !hospitals.isEmpty then
    "I found " ++ toString hospitals.length ++ " hospitals: " ++
      String.intercalate ", " ((hospitals.take 3).map (fun h => h.name)) ++ "."
  else "I couldn\x27t find that hospital. Could you provide more details?"

/-- The canned greeting (agent.py line 88). -/
def greeting_message : String :=
  "Hello! I\x27m Loop AI Health Assistant, your dedicated guide to finding hospitals in the Loop Health network. I can help you locate hospitals by city, verify if specific facilities are in your network, and answer questions about our healthcare partners. How may I assist you today?"

/-- The canned refusal for non-hospital queries (agent.py line 151). -/
def refusal_message : String :=
  "I\x27m sorry, I can only assist with hospital queries. Let me connect you with a human agent."

/-- The outer-exception message (agent.py line 228). -/
def trouble_message : String :=
  "I\x27m having trouble processing your request. Please try again."

/-- The first-query intro prefix (agent.py line 146). -/
def intro_message : String := "Hello! I\x27m Loop AI Health Assistant. "

/-- The bare-greeting word list (agent.py line 143). -/
def greetingWords : List String := ["hi", "hello", "hey", "start", "help"]

/-- The mutable fields of `LoopAIAgent` relevant to `process_query`. -/
structure AgentState where
  memory : ConversationMemory
  session_started : Bool
  deriving DecidableEq

/-- The retrieval dispatch of `process_query` (agent.py lines 164-167),
with Python truthiness on `intent['hospital_name']`. -/
def retrieve (eng : Engine) (intent : Intent) (query : String) :
    List SearchResult :=
  if intent.type == IntentType.confirmation &&
      !((intent.hospital_name.getD "").isEmpty) then
    search_by_name_and_city eng (intent.hospital_name.getD "") intent.city
      intent.count
  else search_hospitals eng query intent.count (mkRat 1 10)

/-- The `try` body of `process_query` after the greeting/refusal gates:
intent extraction, retrieval, the generation loop, memory recording.  The
prompt strings passed to the external generator never influence control
flow and are elided; `gen` is quantified over in every theorem. -/
def process_core (eng : Engine) (gen : Nat → Except Unit String)
    (mem : ConversationMemory) (intro q : String) :
    Except Unit (String × ConversationMemory) :=
  match extract_intent mem q with
  | Except.error e => Except.error e
  | Except.ok intent =>
    let hospitals := retrieve eng intent q
    match attemptLoop gen with
    | Except.error e => Except.error e
    | Except.ok (some answer) =>
      Except.ok (intro ++ answer, add_interaction mem q answer hospitals)
    | Except.ok none =>
      let answer := fallbackAnswer hospitals
      Except.ok (intro ++ answer, add_interaction mem q answer hospitals)

/-- The refusal gate plus the outer `except` handler of `process_query`:
any escaped exception becomes the generic trouble message, with the memory
untouched. -/
def process_body (eng : Engine) (gen : Nat → Except Unit String)
    (st : AgentState) (intro q : String) : String × AgentState :=
  if !is_hospital_related q then (refusal_message, st)
  else
    match process_core eng gen st.memory intro q with
    | Except.ok pr => (pr.1, { st with memory := pr.2 })
    | Except.error _ => (trouble_message, st)

/-- Model of `process_query` (agent.py lines 138-228). -/
def process_query (eng : Engine) (gen : Nat → Except Unit String)
    (st : AgentState) (q : String) (is_first_message : Bool) :
    String × AgentState :=
  if is_first_message || !st.session_started then
    let st1 : AgentState := { st with session_started := true }
    if greetingWords.contains (pyLower (pyStrip q)) then (greeting_message, st1)
    else process_body eng gen st1 intro_message q
  else process_body eng gen st "" q

/-- The intro prefix actually used for the given state and flag. -/
def introOf (st : AgentState) (is_first_message : Bool) : String :=
  if is_first_message || !st.session_started then intro_message else ""

def engT : Engine :=
  { vectorizerSome := true, tfidfSome := true,
    metadata := [⟨"Apollo Hospital", "Bangalore", "123 Main St", 0⟩,
                 ⟨"Manipal Hospital", "Bangalore", "456 Park Ave", 1⟩],
    documents := ["docA", "docM"],
    docVecs := [[1], [1]],
    vec := fun _ => Except.ok [1],
    csim := fun _ _ => mkRat 1 2,
    hospitals_df := some [⟨"Apollo Hospital", "123 Main St", "Bangalore"⟩,
                          ⟨"Manipal Hospital", "456 Park Ave", "Bangalore"⟩] }

/-- The first-pass results as seen from the engine (empty when the
dataframe is absent); `search_by_name_and_city` computes exactly this list
before the semantic fill-up. -/
def firstOf (eng : Engine) (nm : String) (city : Option String) (k : Nat) :
    List SearchResult :=
  match eng.hospitals_df with
  | none => []
  | some rows => firstPass rows nm city k

/-- Replay a sequence of turns through `add_interaction` from a fresh
memory with cap `maxH`. -/
def runAdds (maxH : Nat) (inputs : List Turn) : ConversationMemory :=
  inputs.foldl
    (fun m t => add_interaction m t.user t.assistant t.hospitals)
    (initMemory maxH)

/-- The two public mutations of `ConversationMemory`. -/
inductive MemOp where
  | add (q a : String) (hs : List SearchResult)
  | clear
  deriving Repr, DecidableEq

/-- Apply one memory operation. -/
def applyOp (m : ConversationMemory) : MemOp → ConversationMemory
  | MemOp.add q a hs => add_interaction m q a hs
  | MemOp.clear => clearMemory m

/-- Replay a sequence of memory operations from a fresh memory. -/
def runOps (maxH : Nat) (ops : List MemOp) : ConversationMemory :=
  ops.foldl applyOp (initMemory maxH)

/-- Tracking bit: has a turn with a non-empty result set been recorded
since the last clear? -/
def stepRecorded (b : Bool) : MemOp → Bool
  | MemOp.add _ _ hs => b || !hs.isEmpty
  | MemOp.clear => false

/-- Whether some turn with a non-empty result set was added after the
last clear of the sequence. -/
def hasRecordedCity (ops : List MemOp) : Bool :=
  ops.foldl stepRecorded false

/-- An engine whose vectorizer raises on every query. -/
def engRaise : Engine := { engT with vec := fun _ => Except.error () }

/-- An engine with no loaded dataframe. -/
def engNoDf : Engine := { engT with hospitals_df := none }

/-- A sample retrieved hospital dict. -/
def hospB : SearchResult :=
  ⟨"Apollo Hospital", "123 Main St", "Bangalore", none, 1, "high"⟩

/-- Eleven concrete turns, for the history-cap witness. -/
def turns11 : List Turn :=
  (List.range 11).map (fun i => ⟨toString i, toString i, []⟩)

/-- An engine whose vectorizer maps every query to the zero vector and whose
similarity is identically zero (as cosine similarity is on a zero vector). -/
def engZ : Engine :=
  { engT with vec := fun _ => Except.ok [0], csim := fun _ _ => 0 }

/-- The ordering the argsort model satisfies: ascending score, ties in
ascending document-index order. -/
def rankLE (sims : List ℚ) (i j : Nat) : Prop :=
  sims.getD i 0 ≤ sims.getD j 0 ∧ (sims.getD i 0 = sims.getD j 0 → i < j)

theorem update_context_cities (ctx : MemContext) (q : String)
    (hs : List SearchResult) :
    (update_context ctx q hs).last_cities =
      (if hs.isEmpty then ctx.last_cities
       else some (pySet (hs.map (fun x => x.city)))) ∧
    (update_context ctx q hs).last_hospital_names =
      (if hs.isEmpty then ctx.last_hospital_names
       else some (hs.map (fun x => x.name))) := by
  unfold update_context
  split_ifs <;> simp_all <;> split_ifs <;> simp_all

theorem update_context_intent_confirmation (ctx : MemContext) (q : String)
    (hs : List SearchResult)
    (h : containsAny (pyLower q) ["confirm", "check", "is"] = true) :
    (update_context ctx q hs).last_intent = some IntentType.confirmation := by
  unfold update_context
  simp [h]

/-- C2: the count extracted from "show me five hospitals in Delhi" is 3, not
5: the count regex in `_extract_intent` is the raw string
`r'\x5c\x5cb(\x5c\x5cd+|three|five|ten)\x5c\x5cb'`, whose doubled
backslashes make it match only utterances containing literal
backslash-`b`-delimited tokens; plain digits or number words never match,
so the default 3 is always used.  The last conjunct shows the pattern the
compiled regex really accepts. -/
theorem C2_count_regex_dead :
    extract_intent (initMemory 10) "show me five hospitals in Delhi" =
      Except.ok { type := IntentType.search, city := some "Delhi",
                  hospital_name := none, count := 3 } ∧
    extract_count "show me 5 hospitals in delhi" = 3 ∧
    extract_count "show me \\bfive\\b hospitals in delhi" = 5 := by
  decide

/-- C3 (amended): `add_interaction` recomputes `last_cities` (the distinct
cities of the new result set) and `last_hospital_names` (its names in
order), discarding the previous values, whenever the new result set is
non-empty; when it is empty the previous values are retained unchanged. -/
theorem C3_context_recompute (mem : ConversationMemory) (q a : String)
    (hs : List SearchResult) :
    (hs ≠ [] →
      ∃ l, (add_interaction mem q a hs).context.last_cities = some l ∧
        l.Nodup ∧ (∀ c, c ∈ l ↔ c ∈ hs.map (fun x => x.city)) ∧
        (add_interaction mem q a hs).context.last_hospital_names =
          some (hs.map (fun x => x.name))) ∧
    (hs = [] →
      (add_interaction mem q a hs).context.last_cities =
          mem.context.last_cities ∧
        (add_interaction mem q a hs).context.last_hospital_names =
          mem.context.last_hospital_names) := by
  have hc := update_context_cities mem.context q hs
  constructor
  · intro hne
    have hemp : hs.isEmpty = false := by
      cases hs with
      | nil => exact absurd rfl hne
      | cons x xs => rfl
    refine ⟨pySet (hs.map (fun x => x.city)), ?_, ?_, ?_, ?_⟩
    · simpa [add_interaction, hemp] using hc.1
    · exact List.nodup_dedup _
    · intro c; simp [pySet, List.mem_dedup]
    · simpa [add_interaction, hemp] using hc.2
  · intro he
    subst he
    constructor
    · simpa [add_interaction] using hc.1
    · simpa [add_interaction] using hc.2

/-- C3 counterexample: after a turn with result set in Bangalore followed by
a turn with an empty result set, `last_cities` still holds Bangalore — the
context keys are retained, not discarded, on an empty result set. -/
theorem C3_counterexample :
    ((add_interaction (add_interaction (initMemory 10) "q1" "a1" [hospB])
        "q2" "a2" []).context.last_cities) = some ["Bangalore"] := by
  decide

/-- C7 (amended): the memory-side classifier of `_update_context` and the
extractor-side classifier of `_extract_intent` are distinct functions; they
do agree — both yielding confirmation — whenever the utterance contains one
of "confirm", "check", "is". -/
theorem C7_agree_on_confirmation (mem : ConversationMemory) (q a : String)
    (hs : List SearchResult)
    (h : containsAny (pyLower q) ["confirm", "check", "is"] = true) :
    (add_interaction mem q a hs).context.last_intent =
        some IntentType.confirmation ∧
      extract_type q = IntentType.confirmation := by
  constructor
  · simpa [add_interaction] using
      update_context_intent_confirmation mem.context q hs h
  · unfold extract_type
    have : containsAny (pyLower q) ["confirm", "is", "check", "verify"] = true := by
      rcases List.any_eq_true.mp h with ⟨w, hw, hcont⟩
      refine List.any_eq_true.mpr ⟨w, ?_, hcont⟩
      fin_cases hw <;> simp
    simp [this]

/-- C7 witness: a concrete utterance containing "check" on which the
theorem applies. -/
theorem C7_witness :
    (add_interaction (initMemory 10) "check apollo" "a" []).context.last_intent =
        some IntentType.confirmation ∧
      extract_type "check apollo" = IntentType.confirmation :=
  C7_agree_on_confirmation (initMemory 10) "check apollo" "a" [] (by decide)

/-- C7 counterexample: on "show me more hospitals" the memory records
`search` (the keyword "show" wins in `_update_context`) while the extractor
classifies `followup` (the keyword "more" wins, since `_extract_intent` has
no search-keyword branch); on "verify" the extractor classifies
`confirmation` while the memory rule matches nothing and leaves the
`last_intent` key unset.  The two classifiers are therefore not
equivalent. -/
theorem C7_counterexample :
    ((add_interaction (initMemory 10) "show me more hospitals" "a" []).context.last_intent
        = some IntentType.search ∧
      extract_type "show me more hospitals" = IntentType.followup) ∧
    ((add_interaction (initMemory 10) "verify" "a" []).context.last_intent = none ∧
      extract_type "verify" = IntentType.confirmation) := by
  decide


theorem add_history_step (mem : ConversationMemory) (q a : String)
    (hs : List SearchResult) (L : List Turn) (hm : 1 ≤ mem.max_history)
    (hh : mem.history = L.drop (L.length - mem.max_history)) :
    (add_interaction mem q a hs).history =
      (L ++ [Turn.mk q a hs]).drop ((L.length + 1) - mem.max_history) := by
  have hL : mem.history.length = L.length - (L.length - mem.max_history) := by
    rw [hh, List.length_drop]
  unfold add_interaction
  dsimp only
  split
  case isTrue hgt =>
    have hlen1 : (mem.history ++ [Turn.mk q a hs]).length =
        mem.history.length + 1 := by simp
    rw [hlen1] at hgt
    have hover : mem.max_history ≤ L.length := by omega
    have hhl : mem.history.length = mem.max_history := by omega
    unfold pyTail
    rw [if_neg (by omega : ¬mem.max_history = 0)]
    rw [hlen1]
    rw [show mem.history.length + 1 - mem.max_history = 1 by omega]
    rw [hh]
    have h1le : (1 : Nat) ≤ (L.drop (L.length - mem.max_history)).length := by
      rw [List.length_drop]; omega
    rw [List.drop_append_of_le_length h1le, List.drop_drop]
    rw [List.drop_append_of_le_length
      (by omega : L.length + 1 - mem.max_history ≤ L.length)]
    rw [show L.length - mem.max_history + 1 = L.length + 1 - mem.max_history
      by omega]
  case isFalse hle =>
    have hlen1 : (mem.history ++ [Turn.mk q a hs]).length =
        mem.history.length + 1 := by simp
    rw [hlen1] at hle
    have hlt : L.length < mem.max_history := by omega
    rw [hh, show L.length - mem.max_history = 0 by omega, List.drop_zero,
      show L.length + 1 - mem.max_history = 0 by omega, List.drop_zero]

theorem runAdds_max (maxH : Nat) (inputs : List Turn) :
    (runAdds maxH inputs).max_history = maxH := by
  induction inputs using List.reverseRecOn with
  | nil => rfl
  | append_singleton xs x ih =>
    have hrun : runAdds maxH (xs ++ [x]) =
        add_interaction (runAdds maxH xs) x.user x.assistant x.hospitals := by
      simp [runAdds, List.foldl_append]
    rw [hrun]
    unfold add_interaction
    exact ih

/-- C9: replaying any sequence of turns through `add_interaction` from a
fresh memory with cap `maxH ≥ 1` leaves exactly the most recent
`min (length, maxH)` turns, in order: the cap is never exceeded and
eviction is FIFO on the oldest turn. -/
theorem C9_history_cap (maxH : Nat) (hm : 1 ≤ maxH) (inputs : List Turn) :
    (runAdds maxH inputs).history = inputs.drop (inputs.length - maxH) ∧
    (runAdds maxH inputs).history.length ≤ maxH := by
  have main : (runAdds maxH inputs).history =
      inputs.drop (inputs.length - maxH) := by
    induction inputs using List.reverseRecOn with
    | nil => simp [runAdds, initMemory]
    | append_singleton xs x ih =>
      have hrun : runAdds maxH (xs ++ [x]) =
          add_interaction (runAdds maxH xs) x.user x.assistant x.hospitals := by
        simp [runAdds, List.foldl_append]
      rw [hrun]
      have step := add_history_step (runAdds maxH xs) x.user x.assistant
        x.hospitals xs (by rw [runAdds_max]; exact hm)
        (by rw [runAdds_max]; exact ih)
      rw [runAdds_max] at step
      have hx : Turn.mk x.user x.assistant x.hospitals = x := rfl
      rw [hx] at step
      rw [step]
      congr 1
      simp
  refine ⟨main, ?_⟩
  rw [main, List.length_drop]
  omega

/-- C9 witness: adding eleven concrete turns with the default cap of 10
retains exactly the ten most recent turns, in order. -/
theorem C9_witness :
    (runAdds 10 turns11).history = turns11.drop (turns11.length - 10) ∧
    (runAdds 10 turns11).history.length ≤ 10 :=
  C9_history_cap 10 (by decide) turns11

theorem cityInv_step (m : ConversationMemory) (b : Bool) (op : MemOp)
    (h1 : m.context.last_cities = none → b = false)
    (h2 : ∀ l, m.context.last_cities = some l → b = true ∧ l ≠ []) :
    ((applyOp m op).context.last_cities = none → stepRecorded b op = false) ∧
    (∀ l, (applyOp m op).context.last_cities = some l →
      stepRecorded b op = true ∧ l ≠ []) := by
  cases op with
  | clear => constructor <;> simp [applyOp, clearMemory, stepRecorded]
  | add q a hs =>
    have hc := (update_context_cities m.context q hs).1
    have hlc : (applyOp m (MemOp.add q a hs)).context.last_cities =
        (update_context m.context q hs).last_cities := rfl
    by_cases he : hs.isEmpty
    · rw [hlc, hc, if_pos he]
      have hb : stepRecorded b (MemOp.add q a hs) = b := by
        simp [stepRecorded, he]
      rw [hb]
      exact ⟨h1, h2⟩
    · rw [hlc, hc, if_neg he]
      have hb : stepRecorded b (MemOp.add q a hs) = true := by
        simp [stepRecorded, he]
      constructor
      · intro hno; exact absurd hno (by simp)
      · intro l hl
        refine ⟨hb, ?_⟩
        have hmap : hs.map (fun x => x.city) ≠ [] := by
          cases hs with
          | nil => simp at he
          | cons x xs => simp
        injection hl with hl
        subst hl
        simpa [pySet, List.dedup_eq_nil] using hmap

theorem cityInv_fold (ops : List MemOp) :
    ∀ (m : ConversationMemory) (b : Bool),
      (m.context.last_cities = none → b = false) →
      (∀ l, m.context.last_cities = some l → b = true ∧ l ≠ []) →
      ((ops.foldl applyOp m).context.last_cities = none →
        ops.foldl stepRecorded b = false) ∧
      (∀ l, (ops.foldl applyOp m).context.last_cities = some l →
        ops.foldl stepRecorded b = true ∧ l ≠ []) := by
  induction ops with
  | nil => intro m b h1 h2; exact ⟨h1, h2⟩
  | cons op rest ih =>
    intro m b h1 h2
    have step := cityInv_step m b op h1 h2
    simpa using ih (applyOp m op) (stepRecorded b op) step.1 step.2

/-- C10: `get_last_city` never raises on a memory produced by any sequence
of `add_interaction` / `clear` operations — whenever the `last_cities` key
is present its list is non-empty — and it returns `none` exactly when no
turn with a non-empty result set has been recorded since the last clear. -/
theorem C10_get_last_city_total (maxH : Nat) (ops : List MemOp) :
    ∃ r, get_last_city (runOps maxH ops) = Except.ok r ∧
      r.isSome = hasRecordedCity ops := by
  have inv : ((runOps maxH ops).context.last_cities = none →
      hasRecordedCity ops = false) ∧
      (∀ l, (runOps maxH ops).context.last_cities = some l →
        hasRecordedCity ops = true ∧ l ≠ []) :=
    cityInv_fold ops (initMemory maxH) false (fun _ => rfl)
      (fun l hl => by simp [initMemory] at hl)
  cases hcase : (runOps maxH ops).context.last_cities with
  | none =>
    refine ⟨none, ?_, ?_⟩
    · unfold get_last_city; rw [hcase]
    · simp [inv.1 hcase]
  | some l =>
    obtain ⟨hb, hne⟩ := inv.2 l hcase
    obtain ⟨c, cs, rfl⟩ : ∃ c cs, l = c :: cs := by
      cases l with
      | nil => exact absurd rfl hne
      | cons c cs => exact ⟨c, cs, rfl⟩
    refine ⟨some c, ?_, ?_⟩
    · unfold get_last_city; rw [hcase]; rfl
    · simp [hb]


theorem appendLoop_cons (existing : List String) (k : Nat)
    (acc : List SearchResult) (c : SearchResult) (rest : List SearchResult) :
    appendLoop existing k acc (c :: rest) =
      (if existing.contains (pyLower c.name) = true then
        appendLoop existing k acc rest
      else if k ≤ (acc ++ [c]).length then acc ++ [c]
      else appendLoop existing k (acc ++ [c]) rest) := rfl

theorem appendLoop_spec (existing : List String) (k : Nat) :
    ∀ (cands acc : List SearchResult),
      ∃ extra, appendLoop existing k acc cands = acc ++ extra ∧
        ∀ y ∈ extra, existing.contains (pyLower y.name) = false := by
  intro cands
  induction cands with
  | nil =>
    intro acc
    exact ⟨[], by simp [appendLoop], by simp⟩
  | cons c rest ih =>
    intro acc
    rw [appendLoop_cons]
    by_cases hc : existing.contains (pyLower c.name) = true
    · rw [if_pos hc]
      exact ih acc
    · have hcf : existing.contains (pyLower c.name) = false := by
        simpa using hc
      rw [if_neg hc]
      by_cases hk : k ≤ (acc ++ [c]).length
      · rw [if_pos hk]
        refine ⟨[c], rfl, ?_⟩
        intro y hy
        have hy' : y = c := by simpa using hy
        subst hy'
        exact hcf
      · rw [if_neg hk]
        obtain ⟨extra, he, hp⟩ := ih (acc ++ [c])
        refine ⟨c :: extra, ?_, ?_⟩
        · rw [he, List.append_assoc]
          rfl
        · intro y hy
          rcases List.mem_cons.mp hy with h | h
          · subst h; exact hcf
          · exact hp y h

/-- C6: `search_by_name_and_city` returns at most `k` entries; the
exact-substring first pass comes first and is a catalog-order sublist of
the dataframe rows mapped to score-1.0/high results; every appended
fallback entry has a lowercased name distinct from every first-pass
name. -/
theorem C6_name_city_shape (eng : Engine) (nm : String) (city : Option String)
    (k : Nat) :
    (search_by_name_and_city eng nm city k).length ≤ k ∧
    (∀ x ∈ firstOf eng nm city k, x.score = 1 ∧ x.relevance = "high") ∧
    (∀ rows, eng.hospitals_df = some rows →
      ∃ rs : List Row, List.Sublist rs rows ∧
        firstOf eng nm city k = rs.map mkExact) ∧
    ∃ extra, search_by_name_and_city eng nm city k =
        (firstOf eng nm city k ++ extra).take k ∧
      ∀ y ∈ extra, ∀ x ∈ firstOf eng nm city k,
        pyLower y.name ≠ pyLower x.name := by
  cases hdf : eng.hospitals_df with
  | none =>
    have hr : search_by_name_and_city eng nm city k = [] := by
      unfold search_by_name_and_city
      rw [hdf]
    have hf : firstOf eng nm city k = [] := by
      unfold firstOf
      rw [hdf]
    refine ⟨by simp [hr], by simp [hf], ?_, ⟨[], by simp [hr, hf], by simp⟩⟩
    intro rows hrows
    cases hrows
  | some rows =>
    have hf : firstOf eng nm city k = firstPass rows nm city k := by
      unfold firstOf
      rw [hdf]
    have hr : search_by_name_and_city eng nm city k =
        (if (firstPass rows nm city k).length < k then
          appendLoop ((firstPass rows nm city k).map (fun h => pyLower h.name))
            k (firstPass rows nm city k)
            (search_hospitals eng (fallbackQuery nm city) k (mkRat 1 10))
        else firstPass rows nm city k).take k := by
      unfold search_by_name_and_city
      rw [hdf]
    refine ⟨?_, ?_, ?_, ?_⟩
    · rw [hr]
      simp [List.length_take]
    · intro x hx
      rw [hf] at hx
      unfold firstPass at hx
      rcases List.mem_map.mp hx with ⟨r, _, rfl⟩
      exact ⟨rfl, rfl⟩
    · intro rows2 hrows2
      injection hrows2 with hrows2
      subst hrows2
      refine ⟨(rows.filter (rowMatches nm city)).take k, ?_, ?_⟩
      · exact (List.take_sublist _ _).trans (List.filter_sublist _)
      · rw [hf]
        rfl
    · by_cases hlen : (firstPass rows nm city k).length < k
      · obtain ⟨extra, he, hp⟩ :=
          appendLoop_spec
            ((firstPass rows nm city k).map (fun h => pyLower h.name)) k
            (search_hospitals eng (fallbackQuery nm city) k (mkRat 1 10))
            (firstPass rows nm city k)
        refine ⟨extra, ?_, ?_⟩
        · rw [hr, if_pos hlen, he, hf]
        · intro y hy x hx heq
          have hmem : pyLower y.name ∈
              (firstPass rows nm city k).map (fun h => pyLower h.name) := by
            rw [hf] at hx
            exact List.mem_map.mpr ⟨x, hx, heq.symm⟩
          have hfalse : List.elem (pyLower y.name)
              ((firstPass rows nm city k).map (fun h => pyLower h.name)) =
              false := hp y hy
          have htrue := List.elem_iff.mpr hmem
          rw [hfalse] at htrue
          cases htrue
      · refine ⟨[], ?_, by simp⟩
        rw [hr, if_neg hlen, hf]
        simp

/-- C6 witness: the shape theorem applied to a concrete engine and query,
with the dataframe hypothesis discharged definitionally. -/
theorem C6_witness :
    (search_by_name_and_city engT "apollo" none 3).length ≤ 3 ∧
    ∃ rs : List Row,
      List.Sublist rs [⟨"Apollo Hospital", "123 Main St", "Bangalore"⟩,
        ⟨"Manipal Hospital", "456 Park Ave", "Bangalore"⟩] ∧
      firstOf engT "apollo" none 3 = rs.map mkExact :=
  ⟨(C6_name_city_shape engT "apollo" none 3).1,
   (C6_name_city_shape engT "apollo" none 3).2.2.1 _ rfl⟩

theorem getD_zero_of_all_zero (l : List ℚ) (h : ∀ x ∈ l, x = 0) (i : Nat) :
    l.getD i 0 = 0 := by
  cases hx : l[i]? with
  | none => simp [List.getD_eq_getElem?_getD, hx]
  | some x =>
    have hm : x ∈ l := by
      have := List.getElem?_eq_some.mp hx
      rcases this with ⟨hi, hget⟩
      exact hget ▸ List.getElem_mem hi
    simp [List.getD_eq_getElem?_getD, hx, h x hm]

theorem collectResults_zero (eng : Engine) (sims : List ℚ) (θ : ℚ)
    (hz : ∀ i, sims.getD i 0 = 0) (hθ : 0 < θ) :
    ∀ idxs, collectResults eng sims θ idxs = Except.ok [] := by
  intro idxs
  induction idxs with
  | nil => rfl
  | cons idx rest ih =>
    unfold collectResults
    have hdec : decide (θ ≤ sims.getD idx 0) = false := by
      rw [hz idx]
      exact decide_eq_false (not_le.mpr hθ)
    rw [hdec, Bool.and_false]
    simpa using ih

/-- C8: when the fitted vectorizer sends the query to the zero vector (all
terms out of vocabulary) — so that every cosine similarity is zero —
`search_hospitals` at the default threshold 0.1 returns the empty list and
raises nothing. -/
theorem C8_zero_query_empty (eng : Engine) (q : String) (k : Nat)
    (qv : List ℚ) (hv : eng.vec q = Except.ok qv) (hz : ∀ x ∈ qv, x = 0)
    (hcs : ∀ v d, (∀ x ∈ v, x = (0 : ℚ)) → eng.csim v d = 0) :
    search_hospitals eng q k (mkRat 1 10) = [] := by
  have hz2 : ∀ i, ((eng.docVecs.map (fun d => eng.csim qv d)).getD i 0) = 0 := by
    intro i
    refine getD_zero_of_all_zero _ ?_ i
    intro x hx
    rcases List.mem_map.mp hx with ⟨d, _, rfl⟩
    exact hcs qv d hz
  have hbody : searchBody eng q k (mkRat 1 10) = Except.ok [] := by
    unfold searchBody
    rw [hv]
    exact collectResults_zero eng _ _ hz2 (by decide) _
  unfold search_hospitals
  by_cases hflags : (!eng.vectorizerSome || !eng.tfidfSome) = true
  · rw [if_pos hflags]
  · rw [if_neg hflags, hbody]

/-- C8 witness: a concrete engine whose vectorizer returns the zero vector
and whose similarity function is identically zero. -/
theorem C8_witness : search_hospitals engZ "anything at all" 5 (mkRat 1 10) = [] :=
  C8_zero_query_empty engZ "anything at all" 5 [0] rfl (by decide)
    (fun _ _ _ => rfl)

theorem insertAsc_cons (sims : List ℚ) (i j : Nat) (rest : List Nat) :
    insertAsc sims i (j :: rest) =
      (if sims.getD i 0 < sims.getD j 0 then i :: j :: rest
       else j :: insertAsc sims i rest) := rfl

theorem mem_insertAsc (sims : List ℚ) (i : Nat) :
    ∀ (l : List Nat) (x : Nat), x ∈ insertAsc sims i l → x = i ∨ x ∈ l := by
  intro l
  induction l with
  | nil =>
    intro x hx
    simpa [insertAsc] using hx
  | cons j rest ih =>
    intro x hx
    rw [insertAsc_cons] at hx
    by_cases hlt : sims.getD i 0 < sims.getD j 0
    · rw [if_pos hlt] at hx
      rcases List.mem_cons.mp hx with h | h
      · exact Or.inl h
      · exact Or.inr h
    · rw [if_neg hlt] at hx
      rcases List.mem_cons.mp hx with h | h
      · exact Or.inr (h ▸ List.mem_cons_self j rest)
      · rcases ih x h with h1 | h1
        · exact Or.inl h1
        · exact Or.inr (List.mem_cons_of_mem _ h1)

theorem pairwise_insertAsc (sims : List ℚ) (i : Nat) :
    ∀ l : List Nat, List.Pairwise (rankLE sims) l → (∀ j ∈ l, j < i) →
      List.Pairwise (rankLE sims) (insertAsc sims i l) := by
  intro l
  induction l with
  | nil =>
    intro _ _
    simp [insertAsc]
  | cons j rest ih =>
    intro hp hlt
    rcases List.pairwise_cons.mp hp with ⟨hhead, htail⟩
    rw [insertAsc_cons]
    by_cases hc : sims.getD i 0 < sims.getD j 0
    · rw [if_pos hc]
      refine List.pairwise_cons.mpr ⟨?_, hp⟩
      intro x hx
      rcases List.mem_cons.mp hx with h | h
      · subst h
        exact ⟨le_of_lt hc, fun heq => absurd heq (ne_of_lt hc)⟩
      · have hjx := hhead x h
        refine ⟨le_trans (le_of_lt hc) hjx.1, fun heq => ?_⟩
        exact absurd heq (ne_of_lt (lt_of_lt_of_le hc hjx.1))
    · rw [if_neg hc]
      have hji : sims.getD j 0 ≤ sims.getD i 0 := le_of_not_lt hc
      refine List.pairwise_cons.mpr ⟨?_, ?_⟩
      · intro x hx
        rcases mem_insertAsc sims i _ x hx with h | h
        · subst h
          exact ⟨hji, fun _ => hlt j (List.mem_cons_self j rest)⟩
        · exact hhead x h
      · exact ih htail (fun x hx => hlt x (List.mem_cons_of_mem _ hx))

theorem argsortAux_spec (sims : List ℚ) :
    ∀ n : Nat, List.Pairwise (rankLE sims) (argsortAux sims n) ∧
      (∀ j ∈ argsortAux sims n, j < n) := by
  intro n
  induction n with
  | zero =>
    constructor <;> simp [argsortAux]
  | succ n ih =>
    have heq : argsortAux sims (n + 1) = insertAsc sims n (argsortAux sims n) := by
      unfold argsortAux
      rw [List.range_succ, List.foldl_append]
      rfl
    rw [heq]
    constructor
    · exact pairwise_insertAsc sims n _ ih.1 ih.2
    · intro j hj
      rcases mem_insertAsc sims n _ j hj with h | h
      · omega
      · exact Nat.lt_succ_of_lt (ih.2 j h)

theorem rankedIndices_pairwise (sims : List ℚ) (k : Nat) :
    List.Pairwise (fun i j => rankLE sims j i) (rankedIndices sims k) := by
  have h1 : List.Pairwise (rankLE sims) (argsortAsc sims) :=
    (argsortAux_spec sims sims.length).1
  have h2 : List.Pairwise (fun i j => rankLE sims j i)
      ((argsortAsc sims).reverse) := List.pairwise_reverse.mpr h1
  exact h2.sublist (List.take_sublist _ _)

theorem collectResults_cons (eng : Engine) (sims : List ℚ) (θ : ℚ)
    (idx : Nat) (rest : List Nat) :
    collectResults eng sims θ (idx :: rest) =
      (if idx < eng.metadata.length && decide (θ ≤ sims.getD idx 0) then
        match eng.documents[idx]? with
        | some doc =>
          match eng.metadata[idx]? with
          | some meta =>
            (collectResults eng sims θ rest).map (fun tail =>
              { name := meta.name, address := meta.address, city := meta.city,
                full_text := some doc, score := sims.getD idx 0,
                relevance := relevanceOf (sims.getD idx 0) } :: tail)
          | none => Except.error ()
        | none => Except.error ()
      else collectResults eng sims θ rest) := rfl

theorem collectResults_spec (eng : Engine) (sims : List ℚ) (θ : ℚ) :
    ∀ (idxs : List Nat) (l : List SearchResult),
      collectResults eng sims θ idxs = Except.ok l →
      l.length ≤ idxs.length ∧
      (∀ x ∈ l, ∃ i, i ∈ idxs ∧ x.score = sims.getD i 0 ∧ θ ≤ x.score) ∧
      (List.Pairwise (fun i j => sims.getD j 0 ≤ sims.getD i 0) idxs →
        List.Pairwise (fun a b => b.score ≤ a.score) l) := by
  intro idxs
  induction idxs with
  | nil =>
    intro l hl
    have hnil : Except.ok ([] : List SearchResult) = Except.ok l := hl
    injection hnil with hnil
    subst hnil
    exact ⟨by simp, by simp, by simp⟩
  | cons idx rest ih =>
    intro l hl
    rw [collectResults_cons] at hl
    by_cases hguard :
        (decide (idx < eng.metadata.length) && decide (θ ≤ sims.getD idx 0)) = true
    · rw [if_pos hguard] at hl
      cases hdoc : eng.documents[idx]? with
      | none => rw [hdoc] at hl; cases hl
      | some doc =>
        rw [hdoc] at hl
        cases hmeta : eng.metadata[idx]? with
        | none => rw [hmeta] at hl; cases hl
        | some meta =>
          rw [hmeta] at hl
          cases hrest : collectResults eng sims θ rest with
          | error e => rw [hrest] at hl; cases hl
          | ok tail =>
            rw [hrest] at hl
            simp only [Except.map] at hl
            injection hl with hl
            obtain ⟨hlen, hmem, hpair⟩ := ih tail hrest
            have hand := hguard
            simp only [Bool.and_eq_true, decide_eq_true_eq] at hand
            have hθle : θ ≤ sims.getD idx 0 := hand.2
            subst hl
            refine ⟨by simpa using Nat.succ_le_succ hlen, ?_, ?_⟩
            · intro x hx
              rcases List.mem_cons.mp hx with h | h
              · subst h
                exact ⟨idx, List.mem_cons_self idx rest, rfl, hθle⟩
              · rcases hmem x h with ⟨i, hi, hsc, hth⟩
                exact ⟨i, List.mem_cons_of_mem _ hi, hsc, hth⟩
            · intro hp
              rcases List.pairwise_cons.mp hp with ⟨hhead, htail⟩
              refine List.pairwise_cons.mpr ⟨?_, hpair htail⟩
              intro y hy
              rcases hmem y hy with ⟨i, hi, hsc, _⟩
              have : sims.getD i 0 ≤ sims.getD idx 0 := hhead i hi
              simpa [hsc] using this
    · rw [if_neg hguard] at hl
      obtain ⟨hlen, hmem, hpair⟩ := ih l hl
      refine ⟨Nat.le_succ_of_le hlen, ?_, ?_⟩
      · intro x hx
        rcases hmem x hx with ⟨i, hi, hsc, hth⟩
        exact ⟨i, List.mem_cons_of_mem _ hi, hsc, hth⟩
      · intro hp
        exact hpair (List.pairwise_cons.mp hp).2

/-- C1 (amended): for every query, `k` and threshold, `search_hospitals`
returns at most `k` results, every score is at least the threshold, the
results are sorted by descending score — but equal-score results come in
*reverse* catalog order: modelling `np.argsort` as a stable ascending sort,
the reversal puts ties in descending document-index order, not the original
catalog order the claim states. -/
theorem C1_search_ranked (eng : Engine) (q : String) (k : Nat) (θ : ℚ) :
    (search_hospitals eng q k θ).length ≤ k ∧
    (∀ x ∈ search_hospitals eng q k θ, θ ≤ x.score) ∧
    List.Pairwise (fun a b => b.score ≤ a.score) (search_hospitals eng q k θ) ∧
    List.Pairwise (fun i j => rankLE (simsOf eng q) j i)
      (rankedIndices (simsOf eng q) k) := by
  have hrank := rankedIndices_pairwise (simsOf eng q) k
  unfold search_hospitals
  by_cases hflags : (!eng.vectorizerSome || !eng.tfidfSome) = true
  · rw [if_pos hflags]
    exact ⟨by simp, by simp, by simp, hrank⟩
  · rw [if_neg hflags]
    cases hbody : searchBody eng q k θ with
    | error e => exact ⟨by simp, by simp, by simp, hrank⟩
    | ok l =>
      cases hv : eng.vec q with
      | error e =>
        unfold searchBody at hbody
        rw [hv] at hbody
        cases hbody
      | ok qv =>
        unfold searchBody at hbody
        rw [hv] at hbody
        obtain ⟨hlen, hmem, hpair⟩ := collectResults_spec eng _ θ _ l hbody
        refine ⟨?_, ?_, ?_, hrank⟩
        · refine le_trans hlen ?_
          unfold rankedIndices
          simp [List.length_take]
        · intro x hx
          rcases hmem x hx with ⟨i, hi, hsc, hth⟩
          exact hth
        · apply hpair
          have hall := rankedIndices_pairwise
            (eng.docVecs.map (fun d => eng.csim qv d)) k
          exact hall.imp (fun h => h.1)

/-- C1 counterexample: with two catalog documents of equal similarity, the
results come back in reverse catalog order (document 1 before document 0),
refuting the claimed catalog-order tie-breaking. -/
theorem C1_counterexample :
    (search_hospitals engT "any query" 5 (mkRat 1 10)).map (fun h => h.name) =
      ["Manipal Hospital", "Apollo Hospital"] ∧
    (search_hospitals engT "any query" 5 (mkRat 1 10)).map (fun h => h.score) =
      [mkRat 1 2, mkRat 1 2] ∧
    engT.metadata.map (fun m => m.name) =
      ["Apollo Hospital", "Manipal Hospital"] := by
  decide

theorem process_core_ok_shape (eng : Engine) (gen : Nat → Except Unit String)
    (mem : ConversationMemory) (intro q : String)
    (pr : String × ConversationMemory) :
    process_core eng gen mem intro q = Except.ok pr → ∃ a, pr.1 = intro ++ a := by
  unfold process_core
  cases hi : extract_intent mem q with
  | error e => intro h; cases h
  | ok intent =>
    cases hl : attemptLoop gen with
    | error e => intro h; cases h
    | ok oa =>
      cases oa with
      | some answer =>
        intro h
        injection h with h
        subst h
        exact ⟨answer, rfl⟩
      | none =>
        intro h
        injection h with h
        subst h
        exact ⟨fallbackAnswer (retrieve eng intent q), rfl⟩

theorem process_body_cases (eng : Engine) (gen : Nat → Except Unit String)
    (st : AgentState) (intro q : String) :
    (process_body eng gen st intro q).1 = refusal_message ∨
    (process_body eng gen st intro q).1 = trouble_message ∨
    ∃ a, (process_body eng gen st intro q).1 = intro ++ a := by
  unfold process_body
  by_cases hh : is_hospital_related q = true
  · rw [if_neg (by simp [hh])]
    cases hc : process_core eng gen st.memory intro q with
    | error e => exact Or.inr (Or.inl rfl)
    | ok pr =>
      obtain ⟨a, ha⟩ := process_core_ok_shape eng gen st.memory intro q pr hc
      exact Or.inr (Or.inr ⟨a, ha⟩)
  · rw [if_pos (by simp [Bool.not_eq_true] at hh; simp [hh])]
    exact Or.inl rfl

/-- C5: no exception escapes the three core operations.  `search_hospitals`
catches a raising vectorizer and yields `[]`; `search_by_name_and_city`
yields `[]` when the dataframe is absent (and otherwise delegates only to
total code and to `search_hospitals`); and for every behaviour of the
external generator — including raising on all attempts — `process_query`
returns one of the greeting, the refusal, the generic trouble message, or
an intro-prefixed answer string. -/
theorem C5_no_exception_escapes :
    (∀ eng q k θ, eng.vec q = Except.error () →
      search_hospitals eng q k θ = []) ∧
    (∀ eng nm city k, eng.hospitals_df = none →
      search_by_name_and_city eng nm city k = []) ∧
    (∀ eng gen st q fm,
      (process_query eng gen st q fm).1 = greeting_message ∨
      (process_query eng gen st q fm).1 = refusal_message ∨
      (process_query eng gen st q fm).1 = trouble_message ∨
      ∃ a, (process_query eng gen st q fm).1 = introOf st fm ++ a) := by
  refine ⟨?_, ?_, ?_⟩
  · intro eng q k θ hv
    unfold search_hospitals
    by_cases hflags : (!eng.vectorizerSome || !eng.tfidfSome) = true
    · rw [if_pos hflags]
    · rw [if_neg hflags]
      have hbody : searchBody eng q k θ = Except.error () := by
        unfold searchBody
        rw [hv]
      rw [hbody]
  · intro eng nm city k hdf
    unfold search_by_name_and_city
    rw [hdf]
  · intro eng gen st q fm
    unfold process_query
    by_cases h1 : (fm || !st.session_started) = true
    · rw [if_pos h1]
      have hio : introOf st fm = intro_message := by
        unfold introOf
        rw [if_pos h1]
      by_cases h2 : greetingWords.contains (pyLower (pyStrip q)) = true
      · rw [if_pos h2]
        exact Or.inl rfl
      · rw [if_neg h2]
        rcases process_body_cases eng gen { st with session_started := true }
            intro_message q with h | h | ⟨a, ha⟩
        · exact Or.inr (Or.inl h)
        · exact Or.inr (Or.inr (Or.inl h))
        · exact Or.inr (Or.inr (Or.inr ⟨a, by rw [hio]; exact ha⟩))
    · rw [if_neg h1]
      have hio : introOf st fm = "" := by
        unfold introOf
        rw [if_neg h1]
      rcases process_body_cases eng gen st "" q with h | h | ⟨a, ha⟩
      · exact Or.inr (Or.inl h)
      · exact Or.inr (Or.inr (Or.inl h))
      · exact Or.inr (Or.inr (Or.inr ⟨a, by rw [hio]; exact ha⟩))

/-- C5 witness: the catch clauses at concrete failing engines. -/
theorem C5_witness :
    search_hospitals engRaise "query" 3 (mkRat 1 10) = [] ∧
    search_by_name_and_city engNoDf "apollo" none 3 = [] :=
  ⟨C5_no_exception_escapes.1 engRaise "query" 3 (mkRat 1 10) rfl,
   C5_no_exception_escapes.2.1 engNoDf "apollo" none 3 rfl⟩

/-- C4 (amended): when all three generation attempts fail the quality check
and the third does not raise, `process_query` returns the deterministic
fallback sentence — up to three result names, *without* their cities, or
the generic not-found sentence — and records that turn in memory.  (When
the third attempt raises instead, the outer handler returns the generic
trouble message and records nothing; see the counterexample.) -/
theorem C4_quality_fallback (eng : Engine) (gen : Nat → Except Unit String)
    (st : AgentState) (q : String) (fm : Bool) (it : Intent)
    (h1 : is_hospital_related q = true)
    (h2 : greetingWords.contains (pyLower (pyStrip q)) = false)
    (h3 : extract_intent st.memory q = Except.ok it)
    (h4 : attemptLoop gen = Except.ok none) :
    process_query eng gen st q fm =
      (introOf st fm ++ fallbackAnswer (retrieve eng it q),
       ⟨add_interaction st.memory q (fallbackAnswer (retrieve eng it q))
          (retrieve eng it q), true⟩) := by
  have hcore : ∀ intro, process_core eng gen st.memory intro q =
      Except.ok (intro ++ fallbackAnswer (retrieve eng it q),
        add_interaction st.memory q (fallbackAnswer (retrieve eng it q))
          (retrieve eng it q)) := by
    intro intro
    unfold process_core
    rw [h3, h4]
  have hbody : ∀ (intro : String) (st1 : AgentState), st1.memory = st.memory →
      process_body eng gen st1 intro q =
        (intro ++ fallbackAnswer (retrieve eng it q),
         { st1 with memory := (add_interaction st.memory q
            (fallbackAnswer (retrieve eng it q)) (retrieve eng it q)) }) := by
    intro intro st1 hmem
    unfold process_body
    rw [if_neg (by simp [h1]), hmem, hcore]
  unfold process_query
  by_cases hfm : (fm || !st.session_started) = true
  · rw [if_pos hfm, if_neg (by simp only [h2]; simp)]
    rw [hbody intro_message { st with session_started := true } rfl]
    have hio : introOf st fm = intro_message := by
      unfold introOf
      rw [if_pos hfm]
    rw [hio]
  · rw [if_neg hfm]
    rw [hbody "" st rfl]
    have hio : introOf st fm = "" := by
      unfold introOf
      rw [if_neg hfm]
    rw [hio]
    have hss : st.session_started = true := by
      have : (fm || !st.session_started) = false := by
        simpa using hfm
      rcases Bool.or_eq_false_iff.mp this with ⟨_, hns⟩
      simpa using hns
    rw [hss]

/-- C4 witness: three quality-failing (too short) generations on a concrete
engine lead to the recorded fallback sentence. -/
theorem C4_witness :
    process_query engT (fun _ => Except.ok "x") ⟨initMemory 10, true⟩
        "find hospitals" false =
      (introOf ⟨initMemory 10, true⟩ false ++
        fallbackAnswer
          (retrieve engT ⟨IntentType.search, none, none, 3⟩ "find hospitals"),
       ⟨add_interaction (initMemory 10) "find hospitals"
          (fallbackAnswer
            (retrieve engT ⟨IntentType.search, none, none, 3⟩ "find hospitals"))
          (retrieve engT ⟨IntentType.search, none, none, 3⟩ "find hospitals"),
        true⟩) :=
  C4_quality_fallback engT (fun _ => Except.ok "x") ⟨initMemory 10, true⟩
    "find hospitals" false ⟨IntentType.search, none, none, 3⟩
    (by decide) (by decide) (by decide) (by decide)

/-- C4 counterexample: (1) the all-quality-failures fallback sentence lists
names only — "I found 2 hospitals: Manipal Hospital, Apollo Hospital." —
with no cities, unlike the claimed "names with their cities"; (2) when all
three attempts raise, `process_query` does not produce the templated
fallback at all: it returns the generic trouble message and the turn is not
recorded in memory (the state is unchanged). -/
theorem C4_counterexample :
    (process_query engT (fun _ => Except.ok "x") ⟨initMemory 10, true⟩
        "find hospitals" false).1 =
      "I found 2 hospitals: Manipal Hospital, Apollo Hospital." ∧
    process_query engT (fun _ => Except.error ()) ⟨initMemory 10, true⟩
        "find hospitals" false =
      (trouble_message, ⟨initMemory 10, true⟩) := by
  decide

/-- C3 witness: the recompute theorem applied to a one-result turn. -/
theorem C3_witness :
    ([hospB] ≠ ([] : List SearchResult)) ∧
    ∃ l, (add_interaction (initMemory 10) "q" "a" [hospB]).context.last_cities =
        some l ∧
      l.Nodup ∧ (∀ c, c ∈ l ↔ c ∈ [hospB].map (fun x => x.city)) ∧
      (add_interaction (initMemory 10) "q" "a"
          [hospB]).context.last_hospital_names =
        some ([hospB].map (fun x => x.name)) :=
  ⟨by decide,
   (C3_context_recompute (initMemory 10) "q" "a" [hospB]).1 (by decide)⟩
